import Mathlib

/-!
Shallow embedding of the dock-widget tab collection (`DockWidgetModel`) of
KDDockWidgets, translated from `src/qtquick/views/TabBar.cpp`, together with
theorems settling the behavioural claims about it.

Modelling conventions:
* a `Core::DockWidget*` handle is an opaque non-null pointer, modelled as a
  `Nat`; a nullable pointer (`nullptr` possible) is an `Option DockWidget`;
* the observable side effects of a call (Qt signal emissions, `qWarning`
  diagnostics, `setVisible` calls on the dock-widget entity, and the
  `m_tabBar->setCurrentIndex` update on the owning controller) are returned
  as an explicit list of `Event`s, in emission order;
* `m_connections` (the per-widget title-changed/destroyed connections made at
  insertion and taken at removal) is modelled by the list of subscribed
  handles;
* C++ `int` indices are modelled by `Int` (negative values are legal inputs);
* `DockWidgetModel::setCurrentIndex` and `setCurrentDockWidget` are mutually
  recursive in the source; the embedding uses a fuel parameter.  The entry
  point `setCurrentIndex` supplies fuel 4, which strictly exceeds the maximal
  call depth reachable from it (the nested `setCurrentIndex(indexOf(dw))`
  call always terminates at depth three, because `dockWidgetAt` only resolves
  to `none` or to an element of the sequence).
-/

/-- Opaque non-null handle to a dock-widget entity (`Core::DockWidget*`). -/
abbrev DockWidget := Nat

/-- Observable side effects of the collection operations, in emission order. -/
inductive Event where
  /-- `Q_EMIT countChanged()` -/
  | countChanged : Event
  /-- `Q_EMIT dockWidgetRemoved()` -/
  | dockWidgetRemoved : Event
  /-- `beginInsertRows`/`endInsertRows` pair announcing an insertion at `row`. -/
  | rowsInserted (row : Int) : Event
  /-- `beginRemoveRows`/`endRemoveRows` pair announcing a removal at `row`. -/
  | rowsRemoved (row : Int) : Event
  /-- `Q_EMIT dataChanged(index, index)` for `row`. -/
  | dataChanged (row : Int) : Event
  /-- a `qWarning()` diagnostic. -/
  | warning : Event
  /-- `dw->setVisible(visible)` call on the dock-widget entity. -/
  | setVisible (dw : DockWidget) (visible : Bool) : Event
  /-- `m_tabBar->setCurrentIndex(index)` update on the owning controller. -/
  | tabBarSetCurrentIndex (index : Int) : Event
deriving DecidableEq, Repr

/-- State of `DockWidgetModel` (plus the backing current index it mirrors to
the owning `Core::TabBar`).  `removeGuard` is `m_removeGuard`; it is `true`
exactly while a `remove` call is in progress. -/
structure DockWidgetModel where
  dockWidgets : List DockWidget
  currentDockWidget : Option DockWidget
  connections : List DockWidget
  removeGuard : Bool
  tabBarCurrentIndex : Int
deriving DecidableEq, Repr

namespace DockWidgetModel

/-- Position of the first occurrence of `dw` in `l`, if any (helper for
`QList::indexOf`). -/
def findIndex : List DockWidget → DockWidget → Option Nat
  | [], _ => none
  | x :: xs, dw => if x = dw then some 0 else (findIndex xs dw).map (· + 1)

/-- `QList::indexOf`: first position of `dw`, or `-1` when absent. -/
def qlistIndexOf (l : List DockWidget) (dw : DockWidget) : Int :=
  match findIndex l dw with
  | some n => (n : Int)
  | none => -1

/-- `DockWidgetModel::indexOf` (source lines 355-358). -/
def indexOf (m : DockWidgetModel) (dw : DockWidget) : Int :=
  qlistIndexOf m.dockWidgets dw

/-- `indexOf` applied to a possibly-null pointer; the sequence stores no null
handle, so a null argument always resolves to `-1`. -/
def indexOfOpt (l : List DockWidget) : Option DockWidget → Int
  | none => -1
  | some dw => qlistIndexOf l dw

/-- `DockWidgetModel::count` (source lines 253-256). -/
def count (m : DockWidgetModel) : Int :=
  (m.dockWidgets.length : Int)

/-- `DockWidgetModel::contains` (source lines 289-292). -/
def contains (m : DockWidgetModel) (dw : DockWidget) : Bool :=
  m.dockWidgets.contains dw

/-- `DockWidgetModel::dockWidgetAt` (source lines 279-287): bounds-checked
element access, `nullptr` (`none`) outside `[0, count)`. -/
def dockWidgetAt (m : DockWidgetModel) (index : Int) : Option DockWidget :=
  if index < 0 ∨ (m.dockWidgets.length : Int) ≤ index then
    none
  else
    m.dockWidgets[index.toNat]?

/-- `DockWidgetModel::currentIndex` (source lines 360-372): `-1` when no
current widget; otherwise its position, with a defensive `qWarning` when the
current widget is no longer found in the sequence. -/
def currentIndex (m : DockWidgetModel) : Int × List Event :=
  match m.currentDockWidget with
  | none => (-1, [])
  | some c =>
      let index := qlistIndexOf m.dockWidgets c
      (index, if index = -1 then [Event.warning] else [])

/-- `DockWidgetModel::emitDataChangedFor` (source lines 317-326). -/
def emitDataChangedFor (m : DockWidgetModel) (dw : DockWidget) : List Event :=
  let row := m.indexOf dw
  if row = -1 then [Event.warning] else [Event.dataChanged row]

mutual

/-- `DockWidgetModel::setCurrentDockWidget` (source lines 299-310): hides the
previous current widget, assigns the new one, re-enters
`setCurrentIndex(indexOf(dw))`, then shows whatever widget is current after
that nested call returns.  The fuel argument bounds the reentrant depth. -/
def setCurrentDockWidget : Nat → DockWidgetModel → Option DockWidget →
    DockWidgetModel × List Event
  | 0, m, _ => (m, [])
  | fuel + 1, m, dw =>
      let hideEvents : List Event :=
        match m.currentDockWidget with
        | some c => [Event.setVisible c false]
        | none => []
      let m1 : DockWidgetModel := { m with currentDockWidget := dw }
      let r := setCurrentIndexAux fuel m1 (indexOfOpt m1.dockWidgets dw)
      match r.1.currentDockWidget with
      | some c2 => (r.1, hideEvents ++ r.2 ++ [Event.setVisible c2 true])
      | none => (r.1, hideEvents ++ r.2)

/-- `DockWidgetModel::setCurrentIndex` body (source lines 374-382): resolves
the index, and when the resolved widget differs from the current one, calls
`setCurrentDockWidget` and mirrors the index to the owning controller. -/
def setCurrentIndexAux : Nat → DockWidgetModel → Int →
    DockWidgetModel × List Event
  | 0, m, _ => (m, [])
  | fuel + 1, m, index =>
      let dw := m.dockWidgetAt index
      if m.currentDockWidget = dw then
        (m, [])
      else
        let r := setCurrentDockWidget fuel m dw
        ({ r.1 with tabBarCurrentIndex := index },
          r.2 ++ [Event.tabBarSetCurrentIndex index])

end

/-- Public entry point `DockWidgetModel::setCurrentIndex`; fuel 4 strictly
exceeds the reachable recursion depth. -/
def setCurrentIndex (m : DockWidgetModel) (index : Int) :
    DockWidgetModel × List Event :=
  setCurrentIndexAux 4 m index

/-- `DockWidgetModel::remove` (source lines 328-353).  The
`QScopedValueRollback` sets `m_removeGuard` to `true` for the duration of the
call and restores the entry value on exit; note that the `if (!m_removeGuard)`
test is evaluated after that assignment, faithfully kept here. -/
def remove (m : DockWidgetModel) (dw : DockWidget) :
    DockWidgetModel × List Event :=
  let saved := m.removeGuard
  let m1 : DockWidgetModel := { m with removeGuard := true }
  let row := m1.indexOf dw
  if row = -1 then
    let ev : List Event := if m1.removeGuard = false then [Event.warning] else []
    ({ m1 with removeGuard := saved }, ev)
  else
    let m2 : DockWidgetModel :=
      { m1 with
        connections := m1.connections.erase dw,
        dockWidgets := m1.dockWidgets.erase dw }
    ({ m2 with removeGuard := saved },
      [Event.rowsRemoved row, Event.countChanged, Event.dockWidgetRemoved])

/-- `DockWidgetModel::insert` (source lines 384-405): rejects a handle that is
already present with a diagnostic, otherwise subscribes to the handle's
title-changed and destroyed notifications, splices it in at `index` and emits
`countChanged`.  (`QList::insert` requires `0 ≤ index ≤ size`; the claims
about `insert` only exercise indices in that range.) -/
def insert (m : DockWidgetModel) (dw : DockWidget) (index : Int) :
    DockWidgetModel × List Event × Bool :=
  if m.dockWidgets.contains dw then
    (m, [Event.warning], false)
  else
    let m1 : DockWidgetModel :=
      { m with
        connections := m.connections ++ [dw],
        dockWidgets := m.dockWidgets.insertIdx index.toNat dw }
    (m1, [Event.rowsInserted index, Event.countChanged], true)

/-- Destruction notification for `dw`: Qt fires the `QObject::destroyed`
connection made at insertion time, whose handler calls `remove(dw)` (source
lines 394-395); if the connection was already taken by a prior removal,
nothing runs. -/
def onDestroyed (m : DockWidgetModel) (dw : DockWidget) :
    DockWidgetModel × List Event :=
  if m.connections.contains dw then m.remove dw else (m, [])

/-- `TabBar::moveTabTo` (source lines 155-160): the body only discards its
arguments (drag-reorder is an unimplemented stub), so the collection state is
returned untouched and nothing is emitted. -/
def moveTabTo (m : DockWidgetModel) (_fromIndex _toIndex : Int) :
    DockWidgetModel × List Event :=
  (m, [])

/-- Initial state: empty sequence, no current widget, no connections, guard
down. -/
def empty : DockWidgetModel :=
  { dockWidgets := []
    currentDockWidget := none
    connections := []
    removeGuard := false
    tabBarCurrentIndex := 0 }

end DockWidgetModel

/-! Basic lemmas about `findIndex`, `qlistIndexOf` and `dockWidgetAt`. -/

namespace DockWidgetModel

theorem findIndex_eq_none_iff (l : List DockWidget) (dw : DockWidget) :
    findIndex l dw = none ↔ dw ∉ l := by
  induction l with
  | nil => simp [findIndex]
  | cons x xs ih =>
    by_cases hx : x = dw
    · subst hx
      simp [findIndex]
    · simp [findIndex, hx, Option.map_eq_none, ih, Ne.symm hx]

theorem findIndex_getElem (l : List DockWidget) (dw : DockWidget) (n : Nat)
    (h : findIndex l dw = some n) : l[n]? = some dw := by
  induction l generalizing n with
  | nil => simp [findIndex] at h
  | cons x xs ih =>
    by_cases hx : x = dw
    · subst hx
      simp [findIndex] at h
      subst h
      simp
    · simp [findIndex, hx] at h
      obtain ⟨k, hk, rfl⟩ := h
      simpa using ih k hk

theorem findIndex_of_getElem (l : List DockWidget) (dw : DockWidget) (n : Nat)
    (hnd : l.Nodup) (h : l[n]? = some dw) : findIndex l dw = some n := by
  induction l generalizing n with
  | nil => simp at h
  | cons x xs ih =>
    cases n with
    | zero =>
      simp at h
      subst h
      simp [findIndex]
    | succ k =>
      have hmem : dw ∈ xs := by
        have := List.getElem?_eq_some.mp (by simpa using h)
        exact this.2 ▸ List.getElem_mem this.1
      have hx : x ≠ dw := by
        intro hEq
        subst hEq
        exact (List.nodup_cons.mp hnd).1 hmem
      have := ih k (List.nodup_cons.mp hnd).2 (by simpa using h)
      simp [findIndex, hx, this]

theorem qlistIndexOf_eq_neg_one_iff (l : List DockWidget) (dw : DockWidget) :
    qlistIndexOf l dw = -1 ↔ dw ∉ l := by
  unfold qlistIndexOf
  cases hf : findIndex l dw with
  | none => simp [findIndex_eq_none_iff l dw |>.mp hf]
  | some n =>
    show (n : Int) = -1 ↔ dw ∉ l
    constructor
    · intro h
      exact absurd h (by omega)
    · intro hnot
      have hcontra := (findIndex_eq_none_iff l dw).mpr hnot
      rw [hcontra] at hf
      simp at hf

theorem exists_findIndex_of_mem (l : List DockWidget) (dw : DockWidget)
    (h : dw ∈ l) : ∃ n, findIndex l dw = some n := by
  cases hf : findIndex l dw with
  | none => exact absurd h ((findIndex_eq_none_iff l dw).mp hf)
  | some n => exact ⟨n, rfl⟩

theorem qlistIndexOf_nodup_getElem (l : List DockWidget) (dw : DockWidget)
    (n : Nat) (hnd : l.Nodup) (h : l[n]? = some dw) :
    qlistIndexOf l dw = (n : Int) := by
  unfold qlistIndexOf
  rw [findIndex_of_getElem l dw n hnd h]

theorem dockWidgetAt_neg (m : DockWidgetModel) (index : Int)
    (h : index < 0) : m.dockWidgetAt index = none := by
  unfold dockWidgetAt
  simp [h]

theorem dockWidgetAt_mem (m : DockWidgetModel) (index : Int)
    (dw : DockWidget) (h : m.dockWidgetAt index = some dw) :
    dw ∈ m.dockWidgets := by
  unfold dockWidgetAt at h
  split at h
  · exact absurd h (by simp)
  · have := List.getElem?_eq_some.mp h
    exact this.2 ▸ List.getElem_mem this.1

theorem dockWidgetAt_natCast (m : DockWidgetModel) (n : Nat)
    (dw : DockWidget) (h : m.dockWidgets[n]? = some dw) :
    m.dockWidgetAt (n : Int) = some dw := by
  have hlen : n < m.dockWidgets.length := (List.getElem?_eq_some.mp h).1
  unfold dockWidgetAt
  have h1 : ¬((n : Int) < 0 ∨ (m.dockWidgets.length : Int) ≤ (n : Int)) := by
    push_neg
    constructor
    · omega
    · omega
  simp only [h1, if_false]
  simpa using h

theorem dockWidgetAt_indexOf_self (m : DockWidgetModel) (dw : DockWidget)
    (h : dw ∈ m.dockWidgets) :
    m.dockWidgetAt (qlistIndexOf m.dockWidgets dw) = some dw := by
  obtain ⟨n, hn⟩ := exists_findIndex_of_mem m.dockWidgets dw h
  have hget := findIndex_getElem m.dockWidgets dw n hn
  have : qlistIndexOf m.dockWidgets dw = (n : Int) := by
    unfold qlistIndexOf
    rw [hn]
  rw [this]
  exact dockWidgetAt_natCast m n dw hget

end DockWidgetModel

namespace DockWidgetModel

theorem setCurrentIndexAux_noop (n : Nat) (m : DockWidgetModel) (index : Int)
    (h : m.currentDockWidget = m.dockWidgetAt index) :
    setCurrentIndexAux (n + 1) m index = (m, []) := by
  simp [setCurrentIndexAux, h]

theorem setCurrentDockWidget_some (n : Nat) (m : DockWidgetModel) (h : DockWidget)
    (hmem : h ∈ m.dockWidgets) :
    setCurrentDockWidget (n + 2) m (some h) =
      ({ m with currentDockWidget := some h },
        (match m.currentDockWidget with
         | some c => [Event.setVisible c false]
         | none => []) ++ [Event.setVisible h true]) := by
  have hat : ({ m with currentDockWidget := some h } :
      DockWidgetModel).dockWidgetAt (qlistIndexOf m.dockWidgets h) = some h :=
    dockWidgetAt_indexOf_self { m with currentDockWidget := some h } h hmem
  have hinner := setCurrentIndexAux_noop n { m with currentDockWidget := some h }
    (qlistIndexOf m.dockWidgets h) (by rw [hat])
  show setCurrentDockWidget (n + 1 + 1) m (some h) = _
  simp only [setCurrentDockWidget, indexOfOpt]
  rw [hinner]
  simp

theorem setCurrentDockWidget_none (n : Nat) (m : DockWidgetModel) :
    setCurrentDockWidget (n + 2) m none =
      ({ m with currentDockWidget := none },
        match m.currentDockWidget with
        | some c => [Event.setVisible c false]
        | none => []) := by
  have hinner := setCurrentIndexAux_noop n { m with currentDockWidget := none }
    (-1) ((dockWidgetAt_neg _ _ (by norm_num)).symm)
  show setCurrentDockWidget (n + 1 + 1) m none = _
  simp only [setCurrentDockWidget, indexOfOpt]
  rw [hinner]
  simp

theorem setCurrentIndex_same (m : DockWidgetModel) (index : Int)
    (h : m.currentDockWidget = m.dockWidgetAt index) :
    m.setCurrentIndex index = (m, []) := by
  have := setCurrentIndexAux_noop 3 m index h
  simpa [setCurrentIndex] using this

theorem setCurrentIndex_change_some (m : DockWidgetModel) (index : Int)
    (h : DockWidget) (hd : m.dockWidgetAt index = some h)
    (hne : m.currentDockWidget ≠ some h) :
    m.setCurrentIndex index =
      ({ m with currentDockWidget := some h, tabBarCurrentIndex := index },
        ((match m.currentDockWidget with
          | some c => [Event.setVisible c false]
          | none => []) ++ [Event.setVisible h true]) ++
          [Event.tabBarSetCurrentIndex index]) := by
  have hmem := dockWidgetAt_mem m index h hd
  have hscdw := setCurrentDockWidget_some 1 m h hmem
  norm_num at hscdw
  show setCurrentIndexAux (3 + 1) m index = _
  simp only [setCurrentIndexAux]
  rw [hd, if_neg (by simpa [hd] using hne), hscdw]

theorem setCurrentIndex_change_none (m : DockWidgetModel) (index : Int)
    (hd : m.dockWidgetAt index = none) (hne : m.currentDockWidget ≠ none) :
    m.setCurrentIndex index =
      ({ m with currentDockWidget := none, tabBarCurrentIndex := index },
        (match m.currentDockWidget with
         | some c => [Event.setVisible c false]
         | none => []) ++ [Event.tabBarSetCurrentIndex index]) := by
  have hscdw := setCurrentDockWidget_none 1 m
  norm_num at hscdw
  show setCurrentIndexAux (3 + 1) m index = _
  simp only [setCurrentIndexAux]
  rw [hd, if_neg (by simpa [hd] using hne), hscdw]

theorem remove_absent_eq (m : DockWidgetModel) (dw : DockWidget)
    (h : dw ∉ m.dockWidgets) : m.remove dw = (m, []) := by
  simp [remove, indexOf, (qlistIndexOf_eq_neg_one_iff _ _).mpr h]

theorem remove_present_eq (m : DockWidgetModel) (dw : DockWidget)
    (h : dw ∈ m.dockWidgets) :
    m.remove dw =
      ({ m with
          connections := m.connections.erase dw,
          dockWidgets := m.dockWidgets.erase dw },
        [Event.rowsRemoved (qlistIndexOf m.dockWidgets dw),
          Event.countChanged, Event.dockWidgetRemoved]) := by
  have hrow : ¬ qlistIndexOf m.dockWidgets dw = -1 := by
    intro hc
    exact (qlistIndexOf_eq_neg_one_iff _ _).mp hc h
  simp [remove, indexOf, hrow]

theorem insert_dup_eq (m : DockWidgetModel) (dw : DockWidget) (i : Int)
    (h : dw ∈ m.dockWidgets) : m.insert dw i = (m, [Event.warning], false) := by
  simp [insert, h]

theorem insert_fresh_eq (m : DockWidgetModel) (dw : DockWidget) (i : Int)
    (h : dw ∉ m.dockWidgets) :
    m.insert dw i =
      ({ m with
          connections := m.connections ++ [dw],
          dockWidgets := m.dockWidgets.insertIdx i.toNat dw },
        [Event.rowsInserted i, Event.countChanged], true) := by
  simp [insert, h]

end DockWidgetModel

/-! Helper lemmas about `List.insertIdx` without an index-bound hypothesis
(out-of-range insertion leaves the list unchanged). -/

namespace DockWidgetModel

theorem mem_insertIdx_of_mem (l : List DockWidget) (a b : DockWidget) (n : Nat)
    (h : a ∈ l) : a ∈ l.insertIdx n b := by
  by_cases hn : n ≤ l.length
  · rw [List.mem_insertIdx hn]
    exact Or.inr h
  · rw [List.insertIdx_of_length_lt l b n (by omega)]
    exact h

theorem eq_or_mem_of_mem_insertIdx (l : List DockWidget) (a b : DockWidget)
    (n : Nat) (h : a ∈ l.insertIdx n b) : a = b ∨ a ∈ l := by
  by_cases hn : n ≤ l.length
  · exact (List.mem_insertIdx hn).mp h
  · rw [List.insertIdx_of_length_lt l b n (by omega)] at h
    exact Or.inr h

theorem nodup_insertIdx (l : List DockWidget) (b : DockWidget) (n : Nat)
    (hnd : l.Nodup) (hnm : b ∉ l) : (l.insertIdx n b).Nodup := by
  induction l generalizing n with
  | nil =>
    cases n with
    | zero => simp
    | succ k => simp [List.insertIdx_succ_nil]
  | cons x xs ih =>
    cases n with
    | zero =>
      rw [List.insertIdx_zero]
      exact List.nodup_cons.mpr ⟨hnm, hnd⟩
    | succ k =>
      rw [List.insertIdx_succ_cons]
      have hx : x ∉ xs.insertIdx k b := by
        intro hc
        rcases eq_or_mem_of_mem_insertIdx xs x b k hc with hEq | hmem
        · exact hnm (hEq ▸ List.mem_cons_self x xs)
        · exact (List.nodup_cons.mp hnd).1 hmem
      exact List.nodup_cons.mpr
        ⟨hx, ih k (List.nodup_cons.mp hnd).2 (fun hc => hnm (List.mem_cons_of_mem x hc))⟩

end DockWidgetModel

namespace DockWidgetModel

/-- Claim C10: `dockWidgetAt` is total at the public interface: for
`0 ≤ i < count` it returns the handle stored at position `i`, and for every
other index — all negative indices included — it returns a null result, never
failing.  This is the resolution step `setCurrentIndex` relies on. -/
theorem dockWidgetAt_total (m : DockWidgetModel) (i : Int) :
    (0 ≤ i → i < m.count →
      m.dockWidgetAt i = m.dockWidgets[i.toNat]? ∧ (m.dockWidgetAt i).isSome) ∧
    ((i < 0 ∨ m.count ≤ i) → m.dockWidgetAt i = none) := by
  constructor
  · intro h0 hlt
    have hlen : i.toNat < m.dockWidgets.length := by
      simp only [count] at hlt
      omega
    have hnot : ¬(i < 0 ∨ (m.dockWidgets.length : Int) ≤ i) := by
      push_neg
      refine ⟨by omega, ?_⟩
      simp only [count] at hlt
      omega
    constructor
    · simp [dockWidgetAt, hnot]
    · simp [dockWidgetAt, hnot, List.getElem?_eq_getElem hlen]
  · intro h
    unfold dockWidgetAt
    rw [if_pos (by simpa [count] using h)]

/-- Witness for C10 at the concrete state `[5, 7]`, once inside the range and
once at a negative index. -/
theorem dockWidgetAt_total_witness :
    ((0 : Int) ≤ 1 ∧ (1 : Int) < (⟨[5, 7], none, [5, 7], false, 0⟩ :
        DockWidgetModel).count ∧
      ((⟨[5, 7], none, [5, 7], false, 0⟩ : DockWidgetModel).dockWidgetAt 1 =
          (⟨[5, 7], none, [5, 7], false, 0⟩ :
            DockWidgetModel).dockWidgets[(1 : Int).toNat]? ∧
        ((⟨[5, 7], none, [5, 7], false, 0⟩ :
          DockWidgetModel).dockWidgetAt 1).isSome)) ∧
    (⟨[5, 7], none, [5, 7], false, 0⟩ : DockWidgetModel).dockWidgetAt (-3) =
      none :=
  ⟨⟨by decide, by decide,
      (dockWidgetAt_total ⟨[5, 7], none, [5, 7], false, 0⟩ 1).1
        (by decide) (by decide)⟩,
    (dockWidgetAt_total ⟨[5, 7], none, [5, 7], false, 0⟩ (-3)).2
      (Or.inl (by decide))⟩

/-- Claim C8: when a current handle exists and `setCurrentIndex` is called
with an index resolving to that same handle, the call is a complete no-op —
no hide or show of any entity, no selection-changed event, no update of the
backing current index on the tab-bar controller, and no state change. -/
theorem setCurrentIndex_same_current_noop (m : DockWidgetModel) (i : Int)
    (h : DockWidget) (hc : m.currentDockWidget = some h)
    (hi : m.dockWidgetAt i = some h) :
    m.setCurrentIndex i = (m, []) :=
  setCurrentIndex_same m i (by rw [hc, hi])

/-- Witness for C8 at the concrete state `[4, 6]` with current handle `4`. -/
theorem setCurrentIndex_same_current_noop_witness :
    (⟨[4, 6], some 4, [4, 6], false, 0⟩ :
        DockWidgetModel).currentDockWidget = some 4 ∧
    (⟨[4, 6], some 4, [4, 6], false, 0⟩ :
        DockWidgetModel).dockWidgetAt 0 = some 4 ∧
    (⟨[4, 6], some 4, [4, 6], false, 0⟩ : DockWidgetModel).setCurrentIndex 0 =
      (⟨[4, 6], some 4, [4, 6], false, 0⟩, []) :=
  ⟨by decide, by decide,
    setCurrentIndex_same_current_noop ⟨[4, 6], some 4, [4, 6], false, 0⟩ 0 4
      (by decide) (by decide)⟩

/-- Claim C7: removing a handle that is not in the sequence leaves the
sequence and the current handle unchanged and emits neither a
"widget removed" event nor a "count changed" event. -/
theorem remove_absent_claim (m : DockWidgetModel) (dw : DockWidget)
    (h : dw ∉ m.dockWidgets) :
    (m.remove dw).1.dockWidgets = m.dockWidgets ∧
    (m.remove dw).1.currentDockWidget = m.currentDockWidget ∧
    Event.dockWidgetRemoved ∉ (m.remove dw).2 ∧
    Event.countChanged ∉ (m.remove dw).2 := by
  rw [remove_absent_eq m dw h]
  simp

/-- Witness for C7: removing `9` from the concrete state `[2, 3]`. -/
theorem remove_absent_claim_witness :
    9 ∉ (⟨[2, 3], some 2, [2, 3], false, 0⟩ :
        DockWidgetModel).dockWidgets ∧
    (((⟨[2, 3], some 2, [2, 3], false, 0⟩ :
          DockWidgetModel).remove 9).1.dockWidgets = [2, 3] ∧
      ((⟨[2, 3], some 2, [2, 3], false, 0⟩ :
          DockWidgetModel).remove 9).1.currentDockWidget = some 2) :=
  ⟨by decide,
    (remove_absent_claim ⟨[2, 3], some 2, [2, 3], false, 0⟩ 9 (by decide)).1,
    (remove_absent_claim ⟨[2, 3], some 2, [2, 3], false, 0⟩ 9
        (by decide)).2.1⟩

/-- Claim C9: `TabBar::moveTabTo` is an unimplemented stub, so for all
arguments it leaves the entire collection state unchanged — sequence, current
handle, subscriptions — and emits no events. -/
theorem moveTabTo_stub_noop (m : DockWidgetModel) (fromIndex toIndex : Int) :
    m.moveTabTo fromIndex toIndex = (m, []) :=
  rfl

end DockWidgetModel

namespace DockWidgetModel

/-- Claim C6: inserting a handle that is already present leaves the sequence,
the current handle and the subscription set unchanged, emits no
"count changed" event, records a diagnostic, reports failure, and leaves the
handle appearing exactly once. -/
theorem insert_duplicate_rejected (m : DockWidgetModel) (dw : DockWidget)
    (i : Int) (hmem : dw ∈ m.dockWidgets) (hnd : m.dockWidgets.Nodup) :
    m.insert dw i = (m, [Event.warning], false) ∧
    Event.countChanged ∉ (m.insert dw i).2.1 ∧
    Event.warning ∈ (m.insert dw i).2.1 ∧
    (m.insert dw i).1.dockWidgets.count dw = 1 := by
  have he := insert_dup_eq m dw i hmem
  refine ⟨he, ?_, ?_, ?_⟩
  · rw [he]
    simp
  · rw [he]
    simp
  · rw [he]
    exact List.count_eq_one_of_mem hnd hmem

/-- Witness for C6: re-inserting `2` into the concrete state `[2, 3]`. -/
theorem insert_duplicate_rejected_witness :
    2 ∈ (⟨[2, 3], none, [2, 3], false, 0⟩ : DockWidgetModel).dockWidgets ∧
    (⟨[2, 3], none, [2, 3], false, 0⟩ : DockWidgetModel).insert 2 0 =
      (⟨[2, 3], none, [2, 3], false, 0⟩, [Event.warning], false) ∧
    ((⟨[2, 3], none, [2, 3], false, 0⟩ :
        DockWidgetModel).insert 2 0).1.dockWidgets.count 2 = 1 :=
  ⟨by decide,
    (insert_duplicate_rejected ⟨[2, 3], none, [2, 3], false, 0⟩ 2 0
        (by decide) (by decide)).1,
    (insert_duplicate_rejected ⟨[2, 3], none, [2, 3], false, 0⟩ 2 0
        (by decide) (by decide)).2.2.2⟩

/-- Counterexample to claim C2 as stated: a `remove` of the absent handle `7`
performed while a remove is already in progress (guard flag raised, here with
`2` mid-removal as the different cause) reports no warning diagnostic, where
the claim demands one. -/
theorem remove_nested_absent_warns_counterexample :
    (⟨[2], none, [2], true, 0⟩ : DockWidgetModel).removeGuard = true ∧
    7 ∉ (⟨[2], none, [2], true, 0⟩ : DockWidgetModel).dockWidgets ∧
    Event.warning ∉ ((⟨[2], none, [2], true, 0⟩ :
      DockWidgetModel).remove 7).2 := by
  decide

/-- Claim C2 (amended): a `remove` of an absent handle never reports the
warning diagnostic — the reentrancy guard flag is raised unconditionally at
entry, before the flag is consulted, so the duplicate diagnostic is suppressed
whether or not another remove is in progress — and in all cases the call
completes without failure, leaving the state unchanged. -/
theorem remove_absent_never_warns (m : DockWidgetModel) (dw : DockWidget) :
    Event.warning ∉ (m.remove dw).2 ∧
    (dw ∉ m.dockWidgets → m.remove dw = (m, [])) := by
  constructor
  · by_cases h : dw ∈ m.dockWidgets
    · rw [remove_present_eq m dw h]
      simp
    · rw [remove_absent_eq m dw h]
      simp
  · intro h
    exact remove_absent_eq m dw h

/-- Witness for C2 (amended) at a state with the guard flag raised. -/
theorem remove_absent_never_warns_witness :
    9 ∉ (⟨[2], none, [2], true, 5⟩ : DockWidgetModel).dockWidgets ∧
    (⟨[2], none, [2], true, 5⟩ : DockWidgetModel).remove 9 =
      (⟨[2], none, [2], true, 5⟩, []) :=
  ⟨by decide,
    (remove_absent_never_warns ⟨[2], none, [2], true, 5⟩ 9).2 (by decide)⟩

end DockWidgetModel

namespace DockWidgetModel

/-- Invariant of claim C1: at most one handle is marked current (structurally
guaranteed by the single `Option` field) and the current handle, when set, is
an element of the sequence; otherwise the reported current index is `-1`. -/
def currentInvariant (m : DockWidgetModel) : Bool :=
  match m.currentDockWidget with
  | none => decide ((m.currentIndex).1 = -1)
  | some c => m.dockWidgets.contains c

/-- Counterexample to claim C1 as stated: removing the current handle does not
clear the current marker, so after `remove(1)` on the one-element state with
`1` current, the handle is still marked current while absent from the
sequence — the invariant is not preserved by `remove`. -/
theorem remove_current_breaks_invariant_counterexample :
    currentInvariant (⟨[1], some 1, [1], false, 0⟩ : DockWidgetModel) = true ∧
    ((⟨[1], some 1, [1], false, 0⟩ :
        DockWidgetModel).remove 1).1.currentDockWidget = some 1 ∧
    currentInvariant ((⟨[1], some 1, [1], false, 0⟩ :
      DockWidgetModel).remove 1).1 = false := by
  decide

/-- Claim C1 (amended): `insert`, `setCurrentIndex` and `moveTabTo` preserve
the invariant, and `remove` preserves it whenever the removed handle is not
the current one; removing the current handle leaves it marked current though
no longer an element of the sequence, in which state `currentIndex()` still
defensively reports `-1`.  At most one handle is current at any time by
construction. -/
theorem operations_preserve_current_invariant (m : DockWidgetModel)
    (hnd : m.dockWidgets.Nodup) (hinv : currentInvariant m = true) :
    (∀ dw i, currentInvariant (m.insert dw i).1 = true) ∧
    (∀ i, currentInvariant (m.setCurrentIndex i).1 = true) ∧
    (∀ fromIndex toIndex,
      currentInvariant (m.moveTabTo fromIndex toIndex).1 = true) ∧
    (∀ dw, m.currentDockWidget ≠ some dw →
      currentInvariant (m.remove dw).1 = true) ∧
    (∀ dw, m.currentDockWidget = some dw →
      ((m.remove dw).1.currentIndex).1 = -1) := by
  refine ⟨?_, ?_, ?_, ?_, ?_⟩
  · intro dw i
    by_cases hdup : dw ∈ m.dockWidgets
    · rw [insert_dup_eq m dw i hdup]
      exact hinv
    · rw [insert_fresh_eq m dw i hdup]
      cases hc : m.currentDockWidget with
      | none => simp [currentInvariant, currentIndex, hc]
      | some c =>
        have hcm : c ∈ m.dockWidgets := by
          unfold currentInvariant at hinv
          rw [hc] at hinv
          exact List.mem_of_elem_eq_true hinv
        simp only [currentInvariant, hc]
        exact List.elem_eq_true_of_mem (mem_insertIdx_of_mem _ _ _ _ hcm)
  · intro i
    cases hat : m.dockWidgetAt i with
    | some h =>
      by_cases hcur : m.currentDockWidget = some h
      · rw [setCurrentIndex_same m i (by rw [hcur, hat])]
        exact hinv
      · rw [setCurrentIndex_change_some m i h hat hcur]
        simp only [currentInvariant]
        exact List.elem_eq_true_of_mem (dockWidgetAt_mem m i h hat)
    | none =>
      by_cases hcur : m.currentDockWidget = none
      · rw [setCurrentIndex_same m i (by rw [hcur, hat])]
        exact hinv
      · rw [setCurrentIndex_change_none m i hat hcur]
        simp [currentInvariant, currentIndex]
  · intro fromIndex toIndex
    exact hinv
  · intro dw hne
    by_cases hmem : dw ∈ m.dockWidgets
    · rw [remove_present_eq m dw hmem]
      cases hc : m.currentDockWidget with
      | none => simp [currentInvariant, currentIndex, hc]
      | some c =>
        have hcm : c ∈ m.dockWidgets := by
          unfold currentInvariant at hinv
          rw [hc] at hinv
          exact List.mem_of_elem_eq_true hinv
        have hcne : c ≠ dw := by
          intro hEq
          exact hne (by rw [hc, hEq])
        simp only [currentInvariant, hc]
        exact List.elem_eq_true_of_mem ((List.mem_erase_of_ne hcne).mpr hcm)
    · rw [remove_absent_eq m dw hmem]
      exact hinv
  · intro dw hc
    have hmem : dw ∈ m.dockWidgets := by
      unfold currentInvariant at hinv
      rw [hc] at hinv
      exact List.mem_of_elem_eq_true hinv
    rw [remove_present_eq m dw hmem]
    simp only [currentIndex, hc]
    rw [(qlistIndexOf_eq_neg_one_iff _ _).mpr hnd.not_mem_erase]

/-- Witness for C1 (amended) at the concrete state `[1, 2]` with current
handle `1`: removing the non-current `2` preserves the invariant, removing
the current `1` leaves `currentIndex()` at `-1`. -/
theorem operations_preserve_current_invariant_witness :
    (⟨[1, 2], some 1, [1, 2], false, 0⟩ :
        DockWidgetModel).dockWidgets.Nodup ∧
    currentInvariant (⟨[1, 2], some 1, [1, 2], false, 0⟩ :
        DockWidgetModel) = true ∧
    currentInvariant ((⟨[1, 2], some 1, [1, 2], false, 0⟩ :
        DockWidgetModel).remove 2).1 = true ∧
    (((⟨[1, 2], some 1, [1, 2], false, 0⟩ :
      DockWidgetModel).remove 1).1.currentIndex).1 = -1 :=
  ⟨by decide, by decide,
    (operations_preserve_current_invariant ⟨[1, 2], some 1, [1, 2], false, 0⟩
        (by decide) (by decide)).2.2.2.1 2 (by decide),
    (operations_preserve_current_invariant ⟨[1, 2], some 1, [1, 2], false, 0⟩
        (by decide) (by decide)).2.2.2.2 1 (by decide)⟩

end DockWidgetModel

namespace DockWidgetModel

/-- Claim C3: on a state with no duplicate handles, `setCurrentIndex(i)` with
`0 ≤ i < count` makes `currentIndex()` return `i`; with an out-of-range index
(negative or at least `count`) it makes `currentIndex()` return `-1` and the
previously current handle, if any, has been hidden via `setVisible(false)`. -/
theorem setCurrentIndex_resolution_claim (m : DockWidgetModel) (i : Int)
    (hnd : m.dockWidgets.Nodup) :
    (0 ≤ i → i < m.count → ((m.setCurrentIndex i).1.currentIndex).1 = i) ∧
    ((i < 0 ∨ m.count ≤ i) →
      ((m.setCurrentIndex i).1.currentIndex).1 = -1 ∧
      ∀ c, m.currentDockWidget = some c →
        Event.setVisible c false ∈ (m.setCurrentIndex i).2) := by
  constructor
  · intro h0 hlt
    have hlen : i.toNat < m.dockWidgets.length := by
      simp only [count] at hlt
      omega
    have hget : m.dockWidgets[i.toNat]? = some (m.dockWidgets[i.toNat]) :=
      List.getElem?_eq_getElem hlen
    have hat : m.dockWidgetAt i = some (m.dockWidgets[i.toNat]) := by
      have := dockWidgetAt_natCast m i.toNat (m.dockWidgets[i.toNat]) hget
      rwa [show ((i.toNat : Nat) : Int) = i by omega] at this
    have hq : qlistIndexOf m.dockWidgets (m.dockWidgets[i.toNat]) = i := by
      have := qlistIndexOf_nodup_getElem m.dockWidgets (m.dockWidgets[i.toNat])
        i.toNat hnd hget
      rw [this]
      omega
    by_cases hcur : m.currentDockWidget = some (m.dockWidgets[i.toNat])
    · rw [setCurrentIndex_same m i (by rw [hcur, hat])]
      simp [currentIndex, hcur, hq]
    · rw [setCurrentIndex_change_some m i (m.dockWidgets[i.toNat]) hat hcur]
      simp [currentIndex, hq]
  · intro hoor
    have hat : m.dockWidgetAt i = none := by
      unfold dockWidgetAt
      rw [if_pos (by simpa [count] using hoor)]
    cases hc : m.currentDockWidget with
    | none =>
      rw [setCurrentIndex_same m i (by rw [hc, hat])]
      refine ⟨by simp [currentIndex, hc], ?_⟩
      intro c hcc
      exact Option.noConfusion hcc
    | some c0 =>
      rw [setCurrentIndex_change_none m i hat (by rw [hc]; simp)]
      refine ⟨by simp [currentIndex], ?_⟩
      intro c hcc
      cases hcc
      simp [hc]

/-- Witness for C3 at the concrete state `[3, 8]` with current handle `3`:
index `1` is valid, index `5` is out of range and hides `3`. -/
theorem setCurrentIndex_resolution_claim_witness :
    (⟨[3, 8], some 3, [3, 8], false, 0⟩ :
        DockWidgetModel).dockWidgets.Nodup ∧
    (((⟨[3, 8], some 3, [3, 8], false, 0⟩ :
      DockWidgetModel).setCurrentIndex 1).1.currentIndex).1 = 1 ∧
    (((⟨[3, 8], some 3, [3, 8], false, 0⟩ :
      DockWidgetModel).setCurrentIndex 5).1.currentIndex).1 = -1 ∧
    Event.setVisible 3 false ∈ ((⟨[3, 8], some 3, [3, 8], false, 0⟩ :
      DockWidgetModel).setCurrentIndex 5).2 :=
  ⟨by decide,
    (setCurrentIndex_resolution_claim ⟨[3, 8], some 3, [3, 8], false, 0⟩ 1
        (by decide)).1 (by decide) (by decide),
    ((setCurrentIndex_resolution_claim ⟨[3, 8], some 3, [3, 8], false, 0⟩ 5
        (by decide)).2 (Or.inr (by decide))).1,
    ((setCurrentIndex_resolution_claim ⟨[3, 8], some 3, [3, 8], false, 0⟩ 5
        (by decide)).2 (Or.inr (by decide))).2 3 (by decide)⟩

end DockWidgetModel

namespace DockWidgetModel

/-- Claim C4: for a handle that is in the collection (with its destruction
subscription in place, as `insert` establishes) when its destruction
notification fires, the notification removes it exactly once: exactly one
"widget removed" event and one "count changed" event are emitted, the handle
is gone from the sequence, and a hypothetical second firing would remove
nothing because the subscription was taken during removal. -/
theorem destroyed_removes_exactly_once (m : DockWidgetModel)
    (dw : DockWidget) (hseq : dw ∈ m.dockWidgets)
    (hnd : m.dockWidgets.Nodup) (hconn : dw ∈ m.connections)
    (hcnd : m.connections.Nodup) :
    (m.onDestroyed dw).2.count Event.dockWidgetRemoved = 1 ∧
    (m.onDestroyed dw).2.count Event.countChanged = 1 ∧
    dw ∉ (m.onDestroyed dw).1.dockWidgets ∧
    (m.onDestroyed dw).1.onDestroyed dw = ((m.onDestroyed dw).1, []) := by
  have hcontains : m.connections.contains dw = true :=
    List.elem_eq_true_of_mem hconn
  have hd : m.onDestroyed dw = m.remove dw := by
    unfold onDestroyed
    rw [if_pos hcontains]
  rw [hd, remove_present_eq m dw hseq]
  have hnc : dw ∉ m.connections.erase dw := hcnd.not_mem_erase
  have hnc2 : ¬((m.connections.erase dw).contains dw = true) := by
    intro hx
    exact hnc (List.mem_of_elem_eq_true hx)
  refine ⟨?_, ?_, ?_, ?_⟩
  · simp
  · simp
  · exact hnd.not_mem_erase
  · simp only [onDestroyed]
    rw [if_neg hnc2]

/-- Witness for C4: destroying `2` in the concrete state `[1, 2]`. -/
theorem destroyed_removes_exactly_once_witness :
    2 ∈ (⟨[1, 2], some 1, [1, 2], false, 0⟩ :
        DockWidgetModel).dockWidgets ∧
    2 ∈ (⟨[1, 2], some 1, [1, 2], false, 0⟩ :
        DockWidgetModel).connections ∧
    ((⟨[1, 2], some 1, [1, 2], false, 0⟩ :
      DockWidgetModel).onDestroyed 2).2.count Event.dockWidgetRemoved = 1 ∧
    2 ∉ ((⟨[1, 2], some 1, [1, 2], false, 0⟩ :
      DockWidgetModel).onDestroyed 2).1.dockWidgets :=
  ⟨by decide, by decide,
    (destroyed_removes_exactly_once ⟨[1, 2], some 1, [1, 2], false, 0⟩ 2
        (by decide) (by decide) (by decide) (by decide)).1,
    (destroyed_removes_exactly_once ⟨[1, 2], some 1, [1, 2], false, 0⟩ 2
        (by decide) (by decide) (by decide) (by decide)).2.2.1⟩

end DockWidgetModel

namespace DockWidgetModel

/-- One call in a history of collection operations (claim C5). -/
inductive TabOp where
  | ins (dw : DockWidget) (index : Nat) : TabOp
  | rem (dw : DockWidget) : TabOp
deriving DecidableEq, Repr

/-- Reference semantics following the claim's words: an `insert(h, i)` is the
pure list-splice-in at `i`, a `remove(h)` the pure list-delete. -/
def specApply : List DockWidget → TabOp → List DockWidget
  | l, TabOp.ins dw i => l.insertIdx i dw
  | l, TabOp.rem dw => l.erase dw

/-- Reference result of a history, starting from the empty sequence. -/
def specRun (ops : List TabOp) : List DockWidget :=
  ops.foldl specApply []

/-- State component of the model operation for one history entry. -/
def applyOp (m : DockWidgetModel) : TabOp → DockWidgetModel
  | TabOp.ins dw i => (m.insert dw (i : Int)).1
  | TabOp.rem dw => (m.remove dw).1

/-- Model result of a history, starting from the empty collection. -/
def run (ops : List TabOp) : DockWidgetModel :=
  ops.foldl applyOp empty

/-- Validity of a history from a given sequence: each inserted handle is
fresh at its insertion (what the claim's "pairwise distinct handles"
provides) and each insertion index is within `[0, size]` (the
`QList::insert` precondition). -/
def validFrom : List DockWidget → List TabOp → Bool
  | _, [] => true
  | l, TabOp.ins dw i :: rest =>
      !l.contains dw && decide (i ≤ l.length) &&
        validFrom (l.insertIdx i dw) rest
  | l, TabOp.rem dw :: rest => validFrom (l.erase dw) rest

theorem remove_fst_dockWidgets (m : DockWidgetModel) (dw : DockWidget) :
    (m.remove dw).1.dockWidgets = m.dockWidgets.erase dw := by
  by_cases h : dw ∈ m.dockWidgets
  · rw [remove_present_eq m dw h]
  · rw [remove_absent_eq m dw h, List.erase_of_not_mem h]

theorem foldl_applyOp_dockWidgets (ops : List TabOp) (m : DockWidgetModel)
    (hv : validFrom m.dockWidgets ops = true) :
    (ops.foldl applyOp m).dockWidgets = ops.foldl specApply m.dockWidgets := by
  induction ops generalizing m with
  | nil => rfl
  | cons op rest ih =>
    cases op with
    | ins dw i =>
      rw [List.foldl_cons, List.foldl_cons]
      simp only [validFrom, Bool.and_eq_true, Bool.not_eq_true',
        decide_eq_true_eq] at hv
      obtain ⟨⟨hnc, hle⟩, hrest⟩ := hv
      have hnm : dw ∉ m.dockWidgets := by simpa using hnc
      have happ : applyOp m (TabOp.ins dw i) = (m.insert dw (i : Int)).1 := rfl
      rw [happ, insert_fresh_eq m dw (i : Int) hnm]
      have htn : ((i : Int)).toNat = i := Int.toNat_natCast i
      have hstep := ih
        { m with
          connections := m.connections ++ [dw],
          dockWidgets := m.dockWidgets.insertIdx ((i : Int)).toNat dw }
        (by simpa [htn] using hrest)
      simpa [htn, specApply] using hstep
    | rem dw =>
      rw [List.foldl_cons, List.foldl_cons]
      simp only [validFrom] at hv
      have hrm := remove_fst_dockWidgets m dw
      have hstep := ih (m.remove dw).1 (by rw [hrm]; exact hv)
      show (List.foldl applyOp (m.remove dw).1 rest).dockWidgets =
        List.foldl specApply (m.dockWidgets.erase dw) rest
      rw [hstep, hrm]

theorem specFold_nodup (ops : List TabOp) (l : List DockWidget)
    (hnd : l.Nodup) (hv : validFrom l ops = true) :
    (ops.foldl specApply l).Nodup := by
  induction ops generalizing l with
  | nil => exact hnd
  | cons op rest ih =>
    cases op with
    | ins dw i =>
      simp only [validFrom, Bool.and_eq_true, Bool.not_eq_true',
        decide_eq_true_eq] at hv
      obtain ⟨⟨hnc, _⟩, hrest⟩ := hv
      have hnm : dw ∉ l := by simpa using hnc
      rw [List.foldl_cons]
      exact ih (l.insertIdx i dw) (nodup_insertIdx l dw i hnd hnm) hrest
    | rem dw =>
      rw [List.foldl_cons]
      simp only [validFrom] at hv
      exact ih (l.erase dw) (hnd.erase dw) hv

/-- Claim C5: for every history of `insert`/`remove` calls over pairwise
distinct handles starting from the empty collection (with in-range insertion
indices), the resulting sequence equals the pure list-splice-in/list-delete
result, order of the remaining elements included, and `indexOf` afterwards
returns each present handle's position in that sequence and `-1` for
removed or never-inserted handles. -/
theorem run_refines_list_semantics (ops : List TabOp)
    (hv : validFrom [] ops = true) :
    (run ops).dockWidgets = specRun ops ∧
    (∀ (dw : DockWidget) (n : Nat),
      (specRun ops)[n]? = some dw → (run ops).indexOf dw = (n : Int)) ∧
    (∀ dw, dw ∉ specRun ops → (run ops).indexOf dw = -1) := by
  have hseq : (run ops).dockWidgets = specRun ops :=
    foldl_applyOp_dockWidgets ops empty hv
  have hnd : (specRun ops).Nodup := specFold_nodup ops [] (by simp) hv
  refine ⟨hseq, ?_, ?_⟩
  · intro dw n hget
    unfold indexOf
    rw [hseq]
    exact qlistIndexOf_nodup_getElem _ dw n hnd hget
  · intro dw hnm
    unfold indexOf
    rw [hseq]
    exact (qlistIndexOf_eq_neg_one_iff _ _).mpr hnm

/-- Witness for C5 on the history `insert(1, 0); insert(2, 1); insert(3, 2);
remove(1)`: the sequence is `[2, 3]`, `indexOf(3)` is `1`, `indexOf(1)` is
`-1`. -/
theorem run_refines_list_semantics_witness :
    validFrom [] [TabOp.ins 1 0, TabOp.ins 2 1, TabOp.ins 3 2,
        TabOp.rem 1] = true ∧
    (run [TabOp.ins 1 0, TabOp.ins 2 1, TabOp.ins 3 2,
        TabOp.rem 1]).dockWidgets =
      specRun [TabOp.ins 1 0, TabOp.ins 2 1, TabOp.ins 3 2, TabOp.rem 1] ∧
    (run [TabOp.ins 1 0, TabOp.ins 2 1, TabOp.ins 3 2,
        TabOp.rem 1]).indexOf 3 = 1 ∧
    (run [TabOp.ins 1 0, TabOp.ins 2 1, TabOp.ins 3 2,
        TabOp.rem 1]).indexOf 1 = -1 :=
  ⟨by decide,
    (run_refines_list_semantics [TabOp.ins 1 0, TabOp.ins 2 1, TabOp.ins 3 2,
        TabOp.rem 1] (by decide)).1,
    (run_refines_list_semantics [TabOp.ins 1 0, TabOp.ins 2 1, TabOp.ins 3 2,
        TabOp.rem 1] (by decide)).2.1 3 1 (by decide),
    (run_refines_list_semantics [TabOp.ins 1 0, TabOp.ins 2 1, TabOp.ins 3 2,
        TabOp.rem 1] (by decide)).2.2 1 (by decide)⟩

end DockWidgetModel
